import Mathlib

/-!
Shallow embedding of the conversation-simulation and judging pipeline of the
`pompeu` repository (the simulator in the unnamed TypeScript module, the judge
in `src/judger.ts`, shared types in `src/index.ts`), together with theorems
settling the stated properties of that code.

Model calls (`generateText` / `generateObject`) are external effects: they are
modelled as oracles, functions from the call index to an outcome.  For the
simulator an outcome records the generated text, whether the call elected to
invoke the `finishedGoal` tool, or that the call threw; for the judge an
outcome is the raw structured response (`Option Json`, `none` for a transport
error) which is then validated against the zod schema.  Long English prompt
texts (the buyer system instruction, the store persona document, the judging
rubric) are abbreviated: only their role in the message lists and the
interpolated parameters matter to any property below, never their prose.
-/

namespace Pompeu

/-- The two personas of a conversation (`"buyer" | "store"` in
`ConversationMesage.from`). -/
inductive Party
  | buyer
  | store
deriving DecidableEq

/-- `ConversationMesage` from `src/index.ts` (spelling as in the source):
`{ from: "buyer" | "store"; message: string }`. -/
structure ConversationMesage where
  «from» : Party
  message : String
deriving DecidableEq

/-- Roles of the `ModelMessage`s handed to `generateText`. -/
inductive Role
  | system
  | user
  | assistant
deriving DecidableEq

/-- A role-tagged message passed to a model call (the `ai` package's
`ModelMessage`, restricted to the string-content form used here). -/
structure ModelMessage where
  role : Role
  content : String
deriving DecidableEq

/-- `const MAX_CONVERSATION_LENGTH = 10`, the simulator's loop bound. -/
def MAX_CONVERSATION_LENGTH : Nat := 10

/-- The buyer-side system instruction.  The English prose is abbreviated; the
source builds it by `dedent` over a template interpolating the goal, the
loop bound and the target language, which is what is kept here. -/
def userSystemPrompt (goal language : String) : String :=
  "You are impersonating a client of an e-commerce store. " ++ goal ++
    " The conversation will automatically cut off after " ++
    toString MAX_CONVERSATION_LENGTH ++ " messages. You must speak in " ++
    language ++ "."

/-- The fixed assistant message opening every buyer-side prompt
(`Connected to store Mountain Peak`, apostrophes elided). -/
def connectedMessage : String := "Connected to store Mountain Peak"

/-- The store persona system prompt (`storeGoal`): a long static
business-knowledge document, abbreviated to a stand-in constant. -/
def storeGoal : String :=
  "You are roleplaying as a helpful AI assistant for the e-commerce Mountain Peak."

/-- `const language = "catalan"`. -/
def language : String := "catalan"

/-- `conversationForUser`: the buyer-side prompt builder.  A system message
interpolating the goal and language, the fixed connected notice, then the
conversation so far with empty-text messages filtered out
(`m.message?.length ?? 0 > 0`) and roles swapped: buyer messages become
`assistant`, store messages become `user`. -/
def conversationForUser (conversation : List ConversationMesage)
    (goal language : String) : List ModelMessage :=
  [ { role := Role.system, content := userSystemPrompt goal language },
    { role := Role.assistant, content := connectedMessage } ] ++
  ((conversation.filter fun m => decide (m.message.length > 0)).map
    (fun message =>
      { role := if message.«from» = Party.buyer then Role.assistant else Role.user
        content := message.message }))

/-- `conversationForStore`: the store-side prompt builder.  The store persona
document as the system message, then the conversation with the same
empty-text filter and roles swapped the other way: store messages become
`assistant`, buyer messages become `user`. -/
def conversationForStore (conversation : List ConversationMesage)
    (goal : String) : List ModelMessage :=
  [ { role := Role.system, content := goal } ] ++
  ((conversation.filter fun m => decide (m.message.length > 0)).map
    (fun message =>
      { role := if message.«from» = Party.store then Role.assistant else Role.user
        content := message.message }))

/-- Outcome of one `generateText` call.  `returns text calledFinishedGoal`
bundles the generated text with whether `staticToolResults` contained a
`finishedGoal` invocation; `throws` is a raised exception.  Store-side calls
carry no tools, so their `calledFinishedGoal` component is ignored. -/
inductive CallResult
  | throws
  | returns (text : String) (calledFinishedGoal : Bool)
deriving DecidableEq

/-- How a simulation loop ended: the buyer called the completion tool, the
iteration bound was reached, or an exception was caught by the `try`/`catch`
wrapping the loop. -/
inductive LoopExit
  | finishedTool
  | maxedOut
  | errored
deriving DecidableEq

/-- The `for` loop of `runCase`.  At iteration `i` the buyer-side call is
`buyerResp i`; on a `finishedGoal` tool invocation the loop breaks before
appending anything; otherwise the buyer message is appended, the store-side
call `storeResp i` runs and its reply is appended.  A throw from either call
is caught by the surrounding `catch`, which keeps the conversation gathered
so far. -/
def runLoop (buyerResp storeResp : Nat → CallResult) :
    Nat → Nat → List ConversationMesage → List ConversationMesage × LoopExit
  | 0, _, conv => (conv, LoopExit.maxedOut)
  | remaining + 1, i, conv =>
    match buyerResp i with
    | CallResult.throws => (conv, LoopExit.errored)
    | CallResult.returns userMessage calledTool =>
      if calledTool then
        (conv, LoopExit.finishedTool)
      else
        let conv2 := conv ++ [⟨Party.buyer, userMessage⟩]
        match storeResp i with
        | CallResult.throws => (conv2, LoopExit.errored)
        | CallResult.returns storeMessage _ =>
          runLoop buyerResp storeResp remaining (i + 1)
            (conv2 ++ [⟨Party.store, storeMessage⟩])

/-- The persisted shape of one simulated run (`./results/<id>.json`), minus
the live model handle, which is not durable state. -/
structure SimulationRun where
  goal : String
  modelName : String
  conversation : List ConversationMesage
  startTime : Nat
  endTime : Nat
deriving DecidableEq

/-- `runCase`: runs the loop from an empty conversation (exceptions swallowed
by the `catch`), then — unconditionally, after the `try`/`catch` — writes the
run record under the freshly generated `id`.  The results store is modelled
as an association list; `Bun.write` appends the record to it.  Returns the
record and the updated store. -/
def runCase (goal modelName : String) (buyerResp storeResp : Nat → CallResult)
    (startTime endTime : Nat) (id : String)
    (results : List (String × SimulationRun)) :
    SimulationRun × List (String × SimulationRun) :=
  let conversation := (runLoop buyerResp storeResp MAX_CONVERSATION_LENGTH 0 []).1
  let record : SimulationRun :=
    { goal := goal, modelName := modelName, conversation := conversation,
      startTime := startTime, endTime := endTime }
  (record, results ++ [(id, record)])

/-- A JSON value, the raw structured output of `generateObject` before zod
validation.  Objects are association lists of fields; the first binding for a
key is authoritative. -/
inductive Json
  | str (s : String)
  | num (q : ℚ)
  | bool (b : Bool)
  | null
  | arr (elems : List Json)
  | obj (fields : List (String × Json))

/-- One scored metric: `{ reasoning: z.string(), score: z.number() }`.  The
schema constrains only the types — not the emptiness of `reasoning` nor the
range of `score`. -/
structure MetricResult where
  reasoning : String
  score : ℚ
deriving DecidableEq

/-- The object shape `judgerSchema` validates: exactly the four metrics. -/
structure JudgeResult where
  quality : MetricResult
  correctness : MetricResult
  grammar : MetricResult
  completeness : MetricResult
deriving DecidableEq

/-- Validation of one metric sub-object against
`z.object({ reasoning: z.string(), score: z.number() })`. -/
def parseMetric : Json → Option MetricResult
  | Json.obj fields =>
    match List.lookup "reasoning" fields, List.lookup "score" fields with
    | some (Json.str reasoning), some (Json.num score) =>
      some { reasoning := reasoning, score := score }
    | _, _ => none
  | _ => none

/-- Validation against `judgerSchema`: an object providing the four metric
fields `quality`, `correctness`, `grammar`, `completeness`, each passing
`parseMetric`; anything else is rejected (and `generateObject` throws). -/
def judgerSchemaParse : Json → Option JudgeResult
  | Json.obj fields =>
    match (List.lookup "quality" fields).bind parseMetric,
          (List.lookup "correctness" fields).bind parseMetric,
          (List.lookup "grammar" fields).bind parseMetric,
          (List.lookup "completeness" fields).bind parseMetric with
    | some q, some c, some g, some comp =>
      some { quality := q, correctness := c, grammar := g, completeness := comp }
    | _, _, _, _ => none
  | _ => none

/-- The judge's input: an `ExportedConversation` from `src/index.ts`.  The
live model handle is kept as its string label only. -/
structure ExportedConversation where
  goal : String
  modelName : String
  model : String
  conversation : List ConversationMesage
  startTime : Nat
  endTime : Nat
deriving DecidableEq

/-- The record written to `./judgements/<id>.json`: the original run fields
spread together with the four scored metrics
(`{ id, goal, modelName, startTime, endTime, conversation, ...object }`). -/
structure JudgedRun where
  id : String
  goal : String
  modelName : String
  startTime : Nat
  endTime : Nat
  conversation : List ConversationMesage
  quality : MetricResult
  correctness : MetricResult
  grammar : MetricResult
  completeness : MetricResult
deriving DecidableEq

/-- The JudgedRun the `judge` function writes on a successful attempt. -/
def mkJudged (id : String) (run : ExportedConversation) (r : JudgeResult) :
    JudgedRun :=
  { id := id, goal := run.goal, modelName := run.modelName,
    startTime := run.startTime, endTime := run.endTime,
    conversation := run.conversation,
    quality := r.quality, correctness := r.correctness,
    grammar := r.grammar, completeness := r.completeness }

/-- The recursion of `judge` from `src/judger.ts`.  In the source a failed
attempt at `iteration` retries via `judge(..., iteration + 1)` unless
`iteration > 10`, in which case the error is re-raised.  Starting from
`iteration = 0`, the guard `iteration > 10` is equivalent to the countdown
`retriesLeft = 11 - iteration` having reached `0`, which makes the
recursion structural.  `attempts i` is the raw response of the model call at
iteration `i` (`none` for a transport error); an attempt succeeds when the
response validates against `judgerSchema`.  The result is the written
JudgedRun, or `none` when the error was re-raised and nothing persisted. -/
def judgeRec (id : String) (run : ExportedConversation)
    (attempts : Nat → Option Json) : Nat → Nat → Option JudgedRun
  | iteration, 0 =>
    match (attempts iteration).bind judgerSchemaParse with
    | some r => some (mkJudged id run r)
    | none => none
  | iteration, retriesLeft + 1 =>
    match (attempts iteration).bind judgerSchemaParse with
    | some r => some (mkJudged id run r)
    | none => judgeRec id run attempts (iteration + 1) retriesLeft

/-- `judge(id, run)`: the recursion entered at `iteration = 0`, hence with
`11` retries available (12 attempts in total). -/
def judge (id : String) (run : ExportedConversation)
    (attempts : Nat → Option Json) : Option JudgedRun :=
  judgeRec id run attempts 0 11

/-- Effect of one `judge` invocation on the judgements store
(`./judgements/`, modelled as an association list): a successful invocation
appends the written record under `id`; a failed one leaves the store
unchanged. -/
def judgementsAfter (store : List (String × JudgedRun)) (id : String)
    (run : ExportedConversation) (attempts : Nat → Option Json) :
    List (String × JudgedRun) :=
  match judge id run attempts with
  | some j => store ++ [(id, j)]
  | none => store

/-! ### Helper notions and lemmas for the simulator loop -/

/-- The opposite persona. -/
def otherParty : Party → Party
  | Party.buyer => Party.store
  | Party.store => Party.buyer

/-- Strict buyer/store alternation: `altFrom p conv` holds when the messages
of `conv` come from `p`, `otherParty p`, `p`, … in order. -/
def altFrom : Party → List ConversationMesage → Bool
  | _, [] => true
  | p, m :: rest => decide (m.«from» = p) && altFrom (otherParty p) rest

lemma otherParty_otherParty (p : Party) : otherParty (otherParty p) = p := by
  cases p <;> rfl

lemma altFrom_append :
    ∀ (conv : List ConversationMesage) (p : Party) (m : ConversationMesage),
      altFrom p conv = true →
      m.«from» = (if conv.length % 2 = 0 then p else otherParty p) →
      altFrom p (conv ++ [m]) = true
  | [], p, m, _, hm => by
    simp only [List.length_nil] at hm
    simp [altFrom, hm]
  | x :: rest, p, m, h, hm => by
    simp only [altFrom, Bool.and_eq_true, decide_eq_true_eq] at h
    simp only [List.cons_append, altFrom, Bool.and_eq_true, decide_eq_true_eq]
    refine ⟨h.1, altFrom_append rest (otherParty p) m h.2 ?_⟩
    rcases Nat.mod_two_eq_zero_or_one rest.length with he | he
    · have h1 : (x :: rest).length % 2 = 1 := by
        simp only [List.length_cons]; omega
      rw [h1] at hm
      rw [he]
      simpa using hm
    · have h1 : (x :: rest).length % 2 = 0 := by
        simp only [List.length_cons]; omega
      rw [h1] at hm
      rw [he]
      simp only [if_pos rfl] at hm
      simp [hm, otherParty_otherParty]

lemma altFrom_head (p : Party) (conv : List ConversationMesage)
    (h : altFrom p conv = true) :
    (conv.head?.all fun m => decide (m.«from» = p)) = true := by
  cases conv with
  | nil => rfl
  | cons m rest =>
    simp only [altFrom, Bool.and_eq_true, decide_eq_true_eq] at h
    simp [Option.all, h.1]

lemma runLoop_alt (b s : Nat → CallResult) :
    ∀ (remaining i : Nat) (conv : List ConversationMesage),
      altFrom Party.buyer conv = true → conv.length % 2 = 0 →
      altFrom Party.buyer (runLoop b s remaining i conv).1 = true ∧
      (runLoop b s remaining i conv).1.length ≤ conv.length + 2 * remaining
  | 0, i, conv, halt, _ => ⟨halt, Nat.le_add_right _ _⟩
  | remaining + 1, i, conv, halt, heven => by
    simp only [runLoop]
    cases hb : b i with
    | throws => exact ⟨halt, Nat.le_add_right _ _⟩
    | returns userMessage calledTool =>
      cases calledTool with
      | true => exact ⟨halt, Nat.le_add_right _ _⟩
      | false =>
        have h1 : altFrom Party.buyer (conv ++ [⟨Party.buyer, userMessage⟩]) = true :=
          altFrom_append conv Party.buyer ⟨Party.buyer, userMessage⟩ halt
            (by rw [if_pos heven])
        cases hs : s i with
        | throws =>
          refine ⟨h1, ?_⟩
          show (conv ++ [(⟨Party.buyer, userMessage⟩ : ConversationMesage)]).length ≤
            conv.length + 2 * (remaining + 1)
          simp only [List.length_append, List.length_cons, List.length_nil]
          omega
        | returns storeMessage u =>
          have hodd : (conv ++
              [(⟨Party.buyer, userMessage⟩ : ConversationMesage)]).length % 2 = 1 := by
            simp only [List.length_append, List.length_cons, List.length_nil]
            omega
          have h2 : altFrom Party.buyer
              ((conv ++ [⟨Party.buyer, userMessage⟩]) ++
                [⟨Party.store, storeMessage⟩]) = true := by
            apply altFrom_append _ _ _ h1
            rw [hodd]
            simp [otherParty]
          have h3 : ((conv ++ [(⟨Party.buyer, userMessage⟩ : ConversationMesage)]) ++
              [(⟨Party.store, storeMessage⟩ : ConversationMesage)]).length % 2 = 0 := by
            simp only [List.length_append, List.length_cons, List.length_nil]
            omega
          have ih := runLoop_alt b s remaining (i + 1)
            ((conv ++ [⟨Party.buyer, userMessage⟩]) ++ [⟨Party.store, storeMessage⟩]) h2 h3
          constructor
          · show altFrom Party.buyer (runLoop b s remaining (i + 1)
              ((conv ++ [⟨Party.buyer, userMessage⟩]) ++ [⟨Party.store, storeMessage⟩])).1 = true
            exact ih.1
          · show (runLoop b s remaining (i + 1)
                ((conv ++ [⟨Party.buyer, userMessage⟩]) ++
                  [⟨Party.store, storeMessage⟩])).1.length ≤
              conv.length + 2 * (remaining + 1)
            have hlen := ih.2
            simp only [List.length_append, List.length_cons, List.length_nil] at hlen
            omega

lemma runLoop_mem (b s : Nat → CallResult) :
    ∀ (remaining i : Nat) (conv : List ConversationMesage)
      (m : ConversationMesage), m ∈ conv → m ∈ (runLoop b s remaining i conv).1
  | 0, i, conv, m, hm => by simpa [runLoop] using hm
  | remaining + 1, i, conv, m, hm => by
    simp only [runLoop]
    cases hb : b i with
    | throws => exact hm
    | returns userMessage calledTool =>
      cases calledTool with
      | true => exact hm
      | false =>
        simp only [Bool.false_eq_true, if_false]
        cases hs : s i with
        | throws => exact List.mem_append_left _ hm
        | returns storeMessage u =>
          exact runLoop_mem b s remaining (i + 1) _ m
            (List.mem_append_left _ (List.mem_append_left _ hm))

/-! ### Concrete model-call oracles used in witnesses and counterexamples -/

/-- Oracle whose every call throws. -/
def throwingCalls : Nat → CallResult := fun _ => CallResult.throws

/-- Oracle whose first buyer call produces an empty text (no tool call) and
whose later calls invoke `finishedGoal`. -/
def emptyBuyerCalls : Nat → CallResult
  | 0 => CallResult.returns "" false
  | _ + 1 => CallResult.returns "done" true

/-- Oracle whose every call replies with a fixed non-empty text. -/
def storeReplyCalls : Nat → CallResult := fun _ => CallResult.returns "Hola" false

/-- Oracle whose every call invokes the `finishedGoal` tool. -/
def finishCalls : Nat → CallResult := fun _ => CallResult.returns "done" true

/-! ### Claims about the simulator -/

/-- Claim C3: every simulated run (loop bound `MAX_CONVERSATION_LENGTH = 10`)
yields a conversation of length at most `2 * MAX_CONVERSATION_LENGTH` whose
messages strictly alternate buyer/store starting with the buyer; in
particular a non-empty conversation opens with a buyer message. -/
theorem conversation_bounded_alternating (b s : Nat → CallResult) :
    (runLoop b s MAX_CONVERSATION_LENGTH 0 []).1.length ≤
      2 * MAX_CONVERSATION_LENGTH ∧
    altFrom Party.buyer (runLoop b s MAX_CONVERSATION_LENGTH 0 []).1 = true ∧
    ((runLoop b s MAX_CONVERSATION_LENGTH 0 []).1.head?.all
      fun m => decide (m.«from» = Party.buyer)) = true := by
  have h := runLoop_alt b s MAX_CONVERSATION_LENGTH 0 [] rfl rfl
  exact ⟨by simpa using h.2, h.1, altFrom_head _ _ h.1⟩

/-- Claim C4: if the buyer-side call of some turn invokes the `finishedGoal` tool,
the loop stops at once: nothing (neither a buyer nor a store message) is
appended on that turn, whatever the conversation so far. -/
theorem finishedGoal_stops_loop (b s : Nat → CallResult) (remaining i : Nat)
    (conv : List ConversationMesage) (t : String)
    (hb : b i = CallResult.returns t true) :
    runLoop b s (remaining + 1) i conv = (conv, LoopExit.finishedTool) := by
  simp [runLoop, hb]

/-- Witness for C4 at a concrete oracle. -/
theorem finishedGoal_stops_loop_witness :
    finishCalls 0 = CallResult.returns "done" true ∧
    runLoop finishCalls storeReplyCalls (9 + 1) 0 [] = ([], LoopExit.finishedTool) :=
  ⟨rfl, finishedGoal_stops_loop finishCalls storeReplyCalls 9 0 [] "done" rfl⟩

/-- Claim C10: a buyer (or store) reply is appended to the conversation even when
its text is empty — the empty-text filter acts only when the history is
rendered into a prompt — so a persisted run can contain empty-text messages
while the prompts built from it never replay them. -/
theorem empty_message_persisted (b s : Nat → CallResult) (remaining i : Nat)
    (conv : List ConversationMesage) (t : String)
    (hb : b i = CallResult.returns t false) :
    ConversationMesage.mk Party.buyer t ∈ (runLoop b s (remaining + 1) i conv).1 ∧
    (runCase "g" "m" emptyBuyerCalls storeReplyCalls 0 1 "id2" []).1.conversation =
      [⟨Party.buyer, ""⟩, ⟨Party.store, "Hola"⟩] ∧
    (conversationForUser [⟨Party.buyer, ""⟩, ⟨Party.store, "Hola"⟩] "g" language).drop 2 =
      [⟨Role.user, "Hola"⟩] := by
  refine ⟨?_, by decide, by decide⟩
  simp only [runLoop, hb, Bool.false_eq_true, if_false]
  cases hs : s i with
  | throws => simp
  | returns storeMessage u =>
    exact runLoop_mem b s remaining (i + 1) _ _
      (List.mem_append_left _ (List.mem_append_right _ (by simp)))

/-- Witness for C10 at a concrete oracle: the empty buyer text of turn 0 is
in the resulting conversation. -/
theorem empty_message_persisted_witness :
    emptyBuyerCalls 0 = CallResult.returns "" false ∧
    (ConversationMesage.mk Party.buyer "" ∈
      (runLoop emptyBuyerCalls storeReplyCalls (9 + 1) 0 []).1 ∧
    (runCase "g" "m" emptyBuyerCalls storeReplyCalls 0 1 "id2" []).1.conversation =
      [⟨Party.buyer, ""⟩, ⟨Party.store, "Hola"⟩] ∧
    (conversationForUser [⟨Party.buyer, ""⟩, ⟨Party.store, "Hola"⟩] "g" language).drop 2 =
      [⟨Role.user, "Hola"⟩]) :=
  ⟨rfl, empty_message_persisted emptyBuyerCalls storeReplyCalls 9 0 [] "" rfl⟩

/-- Counterexample to claim C1 as stated: a run whose very first model
call throws ends in the `errored` exit, yet the persisted results store is
NOT left unchanged — `Bun.write` sits after the `try`/`catch` and runs
unconditionally, so the failed run is written. -/
theorem failed_run_persists_counterexample :
    (runLoop throwingCalls throwingCalls MAX_CONVERSATION_LENGTH 0 []).2 =
      LoopExit.errored ∧
    (runCase "g" "m" throwingCalls throwingCalls 0 1 "id1" []).2 ≠ [] := by
  exact ⟨rfl, by decide⟩

/-- Claim C1 as amended: when a model call throws mid-loop the exception is
swallowed and the partial conversation kept, but the run record — carrying
exactly that partial conversation — is still appended to the persisted
results store. -/
theorem failed_run_still_persisted (goal modelName : String)
    (b s : Nat → CallResult) (startTime endTime : Nat) (id : String)
    (results : List (String × SimulationRun))
    (_hfail : (runLoop b s MAX_CONVERSATION_LENGTH 0 []).2 = LoopExit.errored) :
    (runCase goal modelName b s startTime endTime id results).2 =
      results ++ [(id, (runCase goal modelName b s startTime endTime id results).1)] ∧
    (runCase goal modelName b s startTime endTime id results).1.conversation =
      (runLoop b s MAX_CONVERSATION_LENGTH 0 []).1 :=
  ⟨rfl, rfl⟩

/-- Witness for the amended C1 at a concrete throwing oracle. -/
theorem failed_run_still_persisted_witness :
    (runLoop throwingCalls throwingCalls MAX_CONVERSATION_LENGTH 0 []).2 =
      LoopExit.errored ∧
    ((runCase "g" "m" throwingCalls throwingCalls 0 1 "id1" []).2 =
      [] ++ [("id1", (runCase "g" "m" throwingCalls throwingCalls 0 1 "id1" []).1)] ∧
    (runCase "g" "m" throwingCalls throwingCalls 0 1 "id1" []).1.conversation =
      (runLoop throwingCalls throwingCalls MAX_CONVERSATION_LENGTH 0 []).1) :=
  ⟨rfl, failed_run_still_persisted "g" "m" throwingCalls throwingCalls 0 1 "id1" [] rfl⟩

/-! ### Claims about the prompt builders -/

/-- Claim C6: neither prompt builder replays an empty-text message — every element
of the history portion of the built message list (past the fixed prefix:
two messages on the buyer side, one on the store side) has non-empty
content. -/
theorem empty_text_never_replayed (conv : List ConversationMesage)
    (goal lang : String) :
    (((conversationForUser conv goal lang).drop 2).all
      fun mm => decide (mm.content.length > 0)) = true ∧
    (((conversationForStore conv goal).drop 1).all
      fun mm => decide (mm.content.length > 0)) = true := by
  constructor <;>
  · simp only [conversationForUser, conversationForStore, List.cons_append,
      List.nil_append, List.drop_succ_cons, List.drop_zero, List.all_eq_true,
      List.mem_map, List.mem_filter, decide_eq_true_eq]
    rintro mm ⟨m, ⟨_, hpos⟩, rfl⟩
    simpa using hpos

/-- Claim C7: the persona being played is rendered as the assistant.  Any
non-empty conversation message appears in the buyer-side prompt with role
`assistant` when it is a buyer message and `user` when it is a store
message, and in the store-side prompt with the two roles exchanged. -/
theorem persona_roles (conv : List ConversationMesage) (goal lang : String)
    (m : ConversationMesage) (hm : m ∈ conv) (hne : m.message.length > 0) :
    ModelMessage.mk
        (if m.«from» = Party.buyer then Role.assistant else Role.user)
        m.message ∈ conversationForUser conv goal lang ∧
    ModelMessage.mk
        (if m.«from» = Party.store then Role.assistant else Role.user)
        m.message ∈ conversationForStore conv goal := by
  refine ⟨?_, ?_⟩
  · simp only [conversationForUser, List.cons_append, List.nil_append,
      List.mem_cons, List.mem_map, List.mem_filter, decide_eq_true_eq]
    exact Or.inr (Or.inr ⟨m, ⟨hm, hne⟩, rfl⟩)
  · simp only [conversationForStore, List.cons_append, List.nil_append,
      List.mem_cons, List.mem_map, List.mem_filter, decide_eq_true_eq]
    exact Or.inr ⟨m, ⟨hm, hne⟩, rfl⟩

/-- Witness for C7: a concrete two-message conversation, checked for its
store message. -/
theorem persona_roles_witness :
    (ConversationMesage.mk Party.store "Hola" ∈
      [ConversationMesage.mk Party.buyer "Hi",
       ConversationMesage.mk Party.store "Hola"]) ∧
    ((ConversationMesage.mk Party.store "Hola").message.length > 0) ∧
    (ModelMessage.mk
        (if (ConversationMesage.mk Party.store "Hola").«from» = Party.buyer
          then Role.assistant else Role.user) "Hola" ∈
      conversationForUser
        [ConversationMesage.mk Party.buyer "Hi",
         ConversationMesage.mk Party.store "Hola"] "g" language ∧
    ModelMessage.mk
        (if (ConversationMesage.mk Party.store "Hola").«from» = Party.store
          then Role.assistant else Role.user) "Hola" ∈
      conversationForStore
        [ConversationMesage.mk Party.buyer "Hi",
         ConversationMesage.mk Party.store "Hola"] "g") :=
  ⟨by decide, by decide,
    persona_roles
      [ConversationMesage.mk Party.buyer "Hi",
       ConversationMesage.mk Party.store "Hola"] "g" language
      (ConversationMesage.mk Party.store "Hola") (by decide) (by decide)⟩

/-! ### Helper lemmas for the judge recursion -/

lemma judgeRec_success (id : String) (run : ExportedConversation)
    (attempts : Nat → Option Json) (iteration : Nat) (r : JudgeResult)
    (h : (attempts iteration).bind judgerSchemaParse = some r) :
    ∀ retriesLeft, judgeRec id run attempts iteration retriesLeft =
      some (mkJudged id run r)
  | 0 => by simp [judgeRec, h]
  | retriesLeft + 1 => by simp [judgeRec, h]

lemma judgeRec_fail_zero (id : String) (run : ExportedConversation)
    (attempts : Nat → Option Json) (iteration : Nat)
    (h : (attempts iteration).bind judgerSchemaParse = none) :
    judgeRec id run attempts iteration 0 = none := by
  simp [judgeRec, h]

lemma judgeRec_fail_step (id : String) (run : ExportedConversation)
    (attempts : Nat → Option Json) (iteration retriesLeft : Nat)
    (h : (attempts iteration).bind judgerSchemaParse = none) :
    judgeRec id run attempts iteration (retriesLeft + 1) =
      judgeRec id run attempts (iteration + 1) retriesLeft := by
  simp [judgeRec, h]

lemma judgeRec_all_fail (id : String) (run : ExportedConversation)
    (attempts : Nat → Option Json) :
    ∀ (retriesLeft iteration : Nat),
      (∀ i, iteration ≤ i → i ≤ iteration + retriesLeft →
        (attempts i).bind judgerSchemaParse = none) →
      judgeRec id run attempts iteration retriesLeft = none
  | 0, iteration, h =>
    judgeRec_fail_zero id run attempts iteration (h iteration le_rfl (by omega))
  | retriesLeft + 1, iteration, h => by
    rw [judgeRec_fail_step id run attempts iteration retriesLeft
      (h iteration le_rfl (by omega))]
    exact judgeRec_all_fail id run attempts retriesLeft (iteration + 1)
      (fun i hi1 hi2 => h i (by omega) (by omega))

lemma judgeRec_skip (id : String) (run : ExportedConversation)
    (attempts : Nat → Option Json) :
    ∀ (n iteration retriesLeft : Nat), n ≤ retriesLeft →
      (∀ i, iteration ≤ i → i < iteration + n →
        (attempts i).bind judgerSchemaParse = none) →
      judgeRec id run attempts iteration retriesLeft =
        judgeRec id run attempts (iteration + n) (retriesLeft - n)
  | 0, iteration, retriesLeft, _, _ => by simp
  | n + 1, iteration, retriesLeft, hn, h => by
    obtain ⟨rl, rfl⟩ : ∃ rl, retriesLeft = rl + 1 := ⟨retriesLeft - 1, by omega⟩
    have e1 : iteration + (n + 1) = (iteration + 1) + n := by omega
    have e2 : rl + 1 - (n + 1) = rl - n := by omega
    rw [judgeRec_fail_step id run attempts iteration rl
      (h iteration le_rfl (by omega)), e1, e2]
    exact judgeRec_skip id run attempts n (iteration + 1) rl (by omega)
      (fun i hi1 hi2 => h i (by omega) (by omega))

lemma judgeRec_congr (id : String) (run : ExportedConversation)
    (a a' : Nat → Option Json) :
    ∀ (retriesLeft iteration : Nat),
      (∀ i, iteration ≤ i → i ≤ iteration + retriesLeft → a i = a' i) →
      judgeRec id run a iteration retriesLeft =
        judgeRec id run a' iteration retriesLeft
  | 0, iteration, h => by
    simp only [judgeRec, h iteration le_rfl (by omega)]
  | retriesLeft + 1, iteration, h => by
    simp only [judgeRec, h iteration le_rfl (by omega)]
    cases hc : (a' iteration).bind judgerSchemaParse with
    | some r => rfl
    | none =>
      exact judgeRec_congr id run a a' retriesLeft (iteration + 1)
        (fun i hi1 hi2 => h i (by omega) (by omega))

lemma judgeRec_some_shape (id : String) (run : ExportedConversation)
    (attempts : Nat → Option Json) :
    ∀ (retriesLeft iteration : Nat) (j : JudgedRun),
      judgeRec id run attempts iteration retriesLeft = some j →
      ∃ r, j = mkJudged id run r
  | 0, iteration, j, h => by
    cases hc : (attempts iteration).bind judgerSchemaParse with
    | some r =>
      rw [judgeRec_success id run attempts iteration r hc 0] at h
      exact ⟨r, (Option.some.inj h).symm⟩
    | none =>
      rw [judgeRec_fail_zero id run attempts iteration hc] at h
      cases h
  | retriesLeft + 1, iteration, j, h => by
    cases hc : (attempts iteration).bind judgerSchemaParse with
    | some r =>
      rw [judgeRec_success id run attempts iteration r hc (retriesLeft + 1)] at h
      exact ⟨r, (Option.some.inj h).symm⟩
    | none =>
      rw [judgeRec_fail_step id run attempts iteration retriesLeft hc] at h
      exact judgeRec_some_shape id run attempts retriesLeft (iteration + 1) j h

/-! ### Concrete judge inputs used in witnesses and counterexamples -/

/-- A metric sub-object `{ reasoning, score }` as raw JSON. -/
def metricJson (reasoning : String) (score : ℚ) : Json :=
  Json.obj [("reasoning", Json.str reasoning), ("score", Json.num score)]

/-- A well-formed judge response whose scores sit inside every documented
scale. -/
def goodJudgeJson : Json :=
  Json.obj [("quality", metricJson "ok" 1), ("correctness", metricJson "ok" 1),
            ("grammar", metricJson "ok" 1), ("completeness", metricJson "ok" 1)]

/-- The validated form of `goodJudgeJson`. -/
def goodResult : JudgeResult :=
  { quality := ⟨"ok", 1⟩, correctness := ⟨"ok", 1⟩,
    grammar := ⟨"ok", 1⟩, completeness := ⟨"ok", 1⟩ }

/-- A judge response that passes `judgerSchema` although its first reasoning
is empty and its scores lie outside both documented scales. -/
def badJudgeJson : Json :=
  Json.obj [("quality", metricJson "" (-3)), ("correctness", metricJson "ok" 2),
            ("grammar", metricJson "" 99), ("completeness", metricJson "fine" (1/2))]

/-- The validated form of `badJudgeJson`. -/
def badResult : JudgeResult :=
  { quality := ⟨"", -3⟩, correctness := ⟨"ok", 2⟩,
    grammar := ⟨"", 99⟩, completeness := ⟨"fine", 1/2⟩ }

/-- A fixed judge input. -/
def run0 : ExportedConversation :=
  { goal := "g", modelName := "m", model := "handle",
    conversation := [⟨Party.buyer, "Hi"⟩, ⟨Party.store, "Hola"⟩],
    startTime := 0, endTime := 1 }

/-- An attempt oracle whose first eleven attempts (indices 0 to 10) fail and
whose twelfth succeeds. -/
def elevenFailAttempts : Nat → Option Json :=
  fun n => if n ≤ 10 then none else some goodJudgeJson

/-- An attempt oracle failing twice before succeeding. -/
def twoFailAttempts : Nat → Option Json :=
  fun n => if n < 2 then none else some goodJudgeJson

/-! ### Claims about the judge -/

/-- Counterexample to claim C2 as stated: an input on which all eleven
first attempts fail does not surface a failure — the code performs a twelfth
attempt (`iteration = 11` still satisfies `iteration > 10` only after it has
run) and persists its result, so the retry ceiling is eleven retries, not
ten. -/
theorem judge_retry_budget_counterexample :
    ((List.range 11).all fun i => (elevenFailAttempts i).isNone) = true ∧
    judge "r0" run0 elevenFailAttempts = some (mkJudged "r0" run0 goodResult) := by
  exact ⟨by decide, rfl⟩

/-- Claim C2 as amended: the failed request is retried identically with at most 11
retries (12 attempts in total); when all 12 attempts fail the failure is
re-raised to the caller and no JudgedRun is persisted, and attempts beyond
the twelfth are never consulted. -/
theorem judge_retry_exhaustion (id : String) (run : ExportedConversation)
    (attempts attempts' : Nat → Option Json)
    (store : List (String × JudgedRun))
    (hfail : ∀ i, i ≤ 11 → (attempts i).bind judgerSchemaParse = none)
    (hagree : ∀ i, i ≤ 11 → attempts i = attempts' i) :
    judge id run attempts = none ∧
    judgementsAfter store id run attempts = store ∧
    judge id run attempts = judge id run attempts' := by
  have hnone : judge id run attempts = none :=
    judgeRec_all_fail id run attempts 11 0 (fun i hi1 hi2 => hfail i (by omega))
  refine ⟨hnone, ?_, ?_⟩
  · simp [judgementsAfter, hnone]
  · exact judgeRec_congr id run attempts attempts' 11 0
      (fun i hi1 hi2 => hagree i (by omega))

/-- Witness for the amended C2 at the always-failing oracle. -/
theorem judge_retry_exhaustion_witness :
    (∀ i, i ≤ 11 →
      ((fun _ => (none : Option Json)) i).bind judgerSchemaParse = none) ∧
    (∀ i, i ≤ 11 →
      (fun _ => (none : Option Json)) i = (fun _ => (none : Option Json)) i) ∧
    (judge "re" run0 (fun _ => none) = none ∧
     judgementsAfter [] "re" run0 (fun _ => none) = [] ∧
     judge "re" run0 (fun _ => none) = judge "re" run0 (fun _ => none)) :=
  ⟨fun _ _ => rfl, fun _ _ => rfl,
    judge_retry_exhaustion "re" run0 (fun _ => none) (fun _ => none) []
      (fun _ _ => rfl) (fun _ _ => rfl)⟩

/-- Counterexample to claim C5 as stated: the zod schema checks types
only, so the judge accepts — and persists — a result whose quality reasoning
is the empty string and whose quality score is negative, outside the
documented 0.00–1.00 (and 0–10) scale. -/
theorem judge_result_unconstrained_counterexample :
    judge "rb" run0 (fun _ => some badJudgeJson) =
      some (mkJudged "rb" run0 badResult) ∧
    (mkJudged "rb" run0 badResult).quality.reasoning = "" ∧
    (mkJudged "rb" run0 badResult).quality.score < 0 :=
  ⟨rfl, rfl, by show (-3 : ℚ) < 0; norm_num⟩

/-- Claim C5 as amended: every accepted judge result is an object providing
exactly the four metrics quality, correctness, grammar and completeness,
each an object with a string reasoning and a numeric score; the schema does
not require the reasoning to be non-empty nor the score to lie within the
documented scale. -/
theorem judge_schema_shape (j : Json) (r : JudgeResult)
    (h : judgerSchemaParse j = some r) :
    ∃ fields, j = Json.obj fields ∧
      (List.lookup "quality" fields).bind parseMetric = some r.quality ∧
      (List.lookup "correctness" fields).bind parseMetric = some r.correctness ∧
      (List.lookup "grammar" fields).bind parseMetric = some r.grammar ∧
      (List.lookup "completeness" fields).bind parseMetric = some r.completeness := by
  cases j with
  | obj fields =>
    refine ⟨fields, rfl, ?_⟩
    cases hq : (List.lookup "quality" fields).bind parseMetric with
    | none => simp [judgerSchemaParse, hq] at h
    | some q =>
      cases hc : (List.lookup "correctness" fields).bind parseMetric with
      | none => simp [judgerSchemaParse, hq, hc] at h
      | some c =>
        cases hg : (List.lookup "grammar" fields).bind parseMetric with
        | none => simp [judgerSchemaParse, hq, hc, hg] at h
        | some g =>
          cases hcomp : (List.lookup "completeness" fields).bind parseMetric with
          | none => simp [judgerSchemaParse, hq, hc, hg, hcomp] at h
          | some comp =>
            have hr : JudgeResult.mk q c g comp = r := by
              have hh := h
              simp only [judgerSchemaParse, hq, hc, hg, hcomp,
                Option.some.injEq] at hh
              exact hh
            subst hr
            exact ⟨rfl, rfl, rfl, rfl⟩
  | str s => simp [judgerSchemaParse] at h
  | num q => simp [judgerSchemaParse] at h
  | bool b => simp [judgerSchemaParse] at h
  | null => simp [judgerSchemaParse] at h
  | arr elems => simp [judgerSchemaParse] at h

/-- Witness for the amended C5 at the concrete well-formed response. -/
theorem judge_schema_shape_witness :
    judgerSchemaParse goodJudgeJson = some goodResult ∧
    (∃ fields, goodJudgeJson = Json.obj fields ∧
      (List.lookup "quality" fields).bind parseMetric = some goodResult.quality ∧
      (List.lookup "correctness" fields).bind parseMetric = some goodResult.correctness ∧
      (List.lookup "grammar" fields).bind parseMetric = some goodResult.grammar ∧
      (List.lookup "completeness" fields).bind parseMetric = some goodResult.completeness) :=
  ⟨rfl, judge_schema_shape goodJudgeJson goodResult rfl⟩

/-- Claim C8: a successful judge invocation persists a JudgedRun keyed by the
input identifier whose goal, modelName, startTime, endTime and conversation
are those of the input run unchanged, the record being exactly the run
fields plus the four scored metrics. -/
theorem judged_run_preserves_fields (id : String) (run : ExportedConversation)
    (attempts : Nat → Option Json) (j : JudgedRun)
    (h : judge id run attempts = some j) :
    j.id = id ∧ j.goal = run.goal ∧ j.modelName = run.modelName ∧
    j.startTime = run.startTime ∧ j.endTime = run.endTime ∧
    j.conversation = run.conversation ∧
    j = mkJudged id run ⟨j.quality, j.correctness, j.grammar, j.completeness⟩ := by
  obtain ⟨r, rfl⟩ := judgeRec_some_shape id run attempts 11 0 j h
  exact ⟨rfl, rfl, rfl, rfl, rfl, rfl, rfl⟩

/-- Witness for C8 at a first-attempt success. -/
theorem judged_run_preserves_fields_witness :
    judge "rw" run0 (fun _ => some goodJudgeJson) =
      some (mkJudged "rw" run0 goodResult) ∧
    ((mkJudged "rw" run0 goodResult).id = "rw" ∧
     (mkJudged "rw" run0 goodResult).goal = run0.goal ∧
     (mkJudged "rw" run0 goodResult).modelName = run0.modelName ∧
     (mkJudged "rw" run0 goodResult).startTime = run0.startTime ∧
     (mkJudged "rw" run0 goodResult).endTime = run0.endTime ∧
     (mkJudged "rw" run0 goodResult).conversation = run0.conversation ∧
     mkJudged "rw" run0 goodResult = mkJudged "rw" run0
       ⟨(mkJudged "rw" run0 goodResult).quality,
        (mkJudged "rw" run0 goodResult).correctness,
        (mkJudged "rw" run0 goodResult).grammar,
        (mkJudged "rw" run0 goodResult).completeness⟩) :=
  ⟨rfl, judged_run_preserves_fields "rw" run0 (fun _ => some goodJudgeJson)
    (mkJudged "rw" run0 goodResult) rfl⟩

/-- Claim C9, retry idempotence: if the first `n` attempts fail (any `n` within
the retry budget) and attempt `n` succeeds with result `r`, the judge
persists exactly one JudgedRun, the one built from `r` — identical to the
record persisted when the very first attempt succeeds with the same model
output. -/
theorem judge_retry_idempotent (id : String) (run : ExportedConversation)
    (attempts : Nat → Option Json) (n : Nat) (r : JudgeResult)
    (store : List (String × JudgedRun))
    (hn : n ≤ 11)
    (hfail : ∀ i, i < n → (attempts i).bind judgerSchemaParse = none)
    (hsucc : (attempts n).bind judgerSchemaParse = some r) :
    judge id run attempts = some (mkJudged id run r) ∧
    judge id run (fun _ => attempts n) = some (mkJudged id run r) ∧
    judgementsAfter store id run attempts = store ++ [(id, mkJudged id run r)] := by
  have h1 : judge id run attempts = some (mkJudged id run r) := by
    have hskip := judgeRec_skip id run attempts n 0 11 hn
      (fun i hi1 hi2 => hfail i (by omega))
    rw [Nat.zero_add] at hskip
    show judgeRec id run attempts 0 11 = some (mkJudged id run r)
    rw [hskip]
    exact judgeRec_success id run attempts n r hsucc (11 - n)
  refine ⟨h1, ?_, ?_⟩
  · exact judgeRec_success id run (fun _ => attempts n) 0 r hsucc 11
  · simp [judgementsAfter, h1]

/-- Witness for C9 at an oracle failing twice before succeeding. -/
theorem judge_retry_idempotent_witness :
    2 ≤ 11 ∧
    (∀ i, i < 2 → (twoFailAttempts i).bind judgerSchemaParse = none) ∧
    (twoFailAttempts 2).bind judgerSchemaParse = some goodResult ∧
    (judge "ri" run0 twoFailAttempts = some (mkJudged "ri" run0 goodResult) ∧
     judge "ri" run0 (fun _ => twoFailAttempts 2) =
       some (mkJudged "ri" run0 goodResult) ∧
     judgementsAfter [] "ri" run0 twoFailAttempts =
       [] ++ [("ri", mkJudged "ri" run0 goodResult)]) :=
  ⟨by decide, by decide, by decide,
    judge_retry_idempotent "ri" run0 twoFailAttempts 2 goodResult []
      (by decide) (by decide) (by decide)⟩

end Pompeu
